import Mathlib

/-!
Shallow embedding of the vpicc connection engine (src/lib.rs).

Bytes are modelled as `Nat` (wire bytes are values below 256), the duplex
stream as a pair of byte lists: the inbound bytes still to be read, and the
outbound bytes written so far.  The `VSmartCard` trait is modelled as a
structure of operations over an abstract card-state type; every capability
invocation made by the engine is additionally recorded in an event trace so
that "exactly these operations were called" is expressible.
-/

/-- Big-endian decoding of a 2-byte buffer, as `u16::from_be_bytes`. -/
def u16_from_be_bytes : List Nat → Nat
  | b0 :: b1 :: _ => 256 * b0 + b1
  | _ => 0

/-- Big-endian encoding of a `u16` value (a `Nat` below 65536), as
`u16::to_be_bytes`. -/
def u16_to_be_bytes (n : Nat) : List Nat :=
  [n / 256, n % 256]

/-- The error values `Connection::read`, `Connection::poll` and
`Command::try_from` can produce in src/lib.rs:
`unexpectedEof` for a failed `read_exact` (the stream cannot supply the
required byte count), `emptyMessage` for the "received an empty message"
protocol error, and `unsupportedCommand b` for the "unsupported control
command b" decode error. -/
inductive VpcdError where
  | unexpectedEof : VpcdError
  | emptyMessage : VpcdError
  | unsupportedCommand : Nat → VpcdError
deriving DecidableEq, Repr

/-- The control commands of src/lib.rs (`enum Command`). -/
inductive Command where
  | powerOff : Command
  | powerOn : Command
  | reset : Command
  | getAtr : Command
deriving DecidableEq, Repr

/-- `impl TryFrom<u8> for Command` in src/lib.rs: 0, 1, 2, 4 decode to the
four commands, anything else is an `InvalidData` error carrying the byte. -/
def Command.try_from (command : Nat) : Except VpcdError Command :=
  if command = 0 then .ok .powerOff
  else if command = 1 then .ok .powerOn
  else if command = 2 then .ok .reset
  else if command = 4 then .ok .getAtr
  else .error (.unsupportedCommand command)

/-- One capability invocation made by the engine, recorded in order. -/
inductive CardEvent where
  | powerOff : CardEvent
  | powerOn : CardEvent
  | reset : CardEvent
  | atr : CardEvent
  | execute : List Nat → CardEvent
deriving DecidableEq, Repr

/-- `DEFAULT_ATR` of src/lib.rs. -/
def DEFAULT_ATR : List Nat :=
  [0x3b, 0x95, 0x13, 0x81, 0x01, 0x80, 0x73, 0xff, 0x01, 0x00, 0x0B]

/-- The `VSmartCard` trait of src/lib.rs over an abstract state type:
`atr` reads the state, the power hooks and `reset` transform it, `execute`
transforms it and returns the response APDU.  The defaults mirror the
trait's default method bodies (`atr` returns `DEFAULT_ATR`, the hooks do
nothing); `execute` is the one mandatory operation. -/
structure VSmartCard (σ : Type) where
  atr : σ → List Nat := fun _ => DEFAULT_ATR
  power_on : σ → σ := fun s => s
  power_off : σ → σ := fun s => s
  reset : σ → σ := fun s => s
  execute : σ → List Nat → σ × List Nat

/-- `DummySmartCard` of src/lib.rs: default ATR, logging-only hooks,
`execute` always answers `[0x90, 0x00]`. -/
def DummySmartCard : VSmartCard Unit where
  execute s _ := (s, [0x90, 0x00])

/-- `Read::read_exact` on a buffer of length `n`: succeeds with the first
`n` bytes and the remaining stream exactly when the stream holds at least
`n` bytes, otherwise fails (short reads are never accepted). -/
def readExact (n : Nat) (input : List Nat) :
    Except VpcdError (List Nat × List Nat) :=
  if n ≤ input.length then .ok (input.take n, input.drop n)
  else .error .unexpectedEof

/-- `Connection::read` of src/lib.rs: `read_exact` a 2-byte buffer,
decode it as a big-endian `u16` size, then `read_exact` that many payload
bytes.  Returns the payload and the remaining inbound stream. -/
def Connection.read (input : List Nat) :
    Except VpcdError (List Nat × List Nat) :=
  match readExact 2 input with
  | .error e => .error e
  | .ok (size, rest) => readExact (u16_from_be_bytes size) rest

/-- `Connection::send` of src/lib.rs: the bytes placed on the wire are
`(data.len() as u16).to_be_bytes()` (the length cast truncates modulo
65536) concatenated with `data`, written with `write_all`. -/
def Connection.send (data : List Nat) : List Nat :=
  u16_to_be_bytes (data.length % 65536) ++ data

/-- Everything observable about one `Connection::poll` call:
its `Result<()>`, the card state after it, the inbound bytes not consumed,
the bytes written to the stream, and the capability invocations made. -/
structure PollOutput (σ : Type) where
  result : Except VpcdError Unit
  card : σ
  rest : List Nat
  written : List Nat
  events : List CardEvent

/-- `Connection::poll` of src/lib.rs: read one frame; fail on an empty
frame; classify a 1-byte frame with `Command::try_from` (propagating its
error) and dispatch to the matching capability hook, answering `GetAtr`
with one `send` of the card's ATR; hand any longer frame to `execute` and
`send` back its exact return value. -/
def Connection.poll {σ : Type} (card : VSmartCard σ) (s : σ)
    (input : List Nat) : PollOutput σ :=
  match Connection.read input with
  | .error e => ⟨.error e, s, input, [], []⟩
  | .ok (msg, rest) =>
    if msg.isEmpty then ⟨.error .emptyMessage, s, rest, [], []⟩
    else if msg.length = 1 then
      match Command.try_from (msg.headD 0) with
      | .error e => ⟨.error e, s, rest, [], []⟩
      | .ok .powerOff => ⟨.ok (), card.power_off s, rest, [], [.powerOff]⟩
      | .ok .powerOn => ⟨.ok (), card.power_on s, rest, [], [.powerOn]⟩
      | .ok .reset => ⟨.ok (), card.reset s, rest, [], [.reset]⟩
      | .ok .getAtr =>
          ⟨.ok (), s, rest, Connection.send (card.atr s), [.atr]⟩
    else
      let r := card.execute s msg
      ⟨.ok (), r.1, rest, Connection.send r.2, [.execute msg]⟩

/-- A successful `readExact` consumed its bytes: the remainder is the
`drop` and the stream held at least `n` bytes. -/
def readExact_ok_facts {n : Nat} {input msg rest : List Nat}
    (h : readExact n input = Except.ok (msg, rest)) :
    n ≤ input.length ∧ rest = input.drop n := by
  unfold readExact at h
  split at h
  · exact ⟨by assumption, by injection h with h1; injection h1 with _ h2; exact h2.symm⟩
  · cases h

/-- A successful `Connection.read` strictly shrinks the inbound stream
(it consumes at least the 2-byte size). -/
def read_ok_rest_lt {input msg rest : List Nat}
    (h : Connection.read input = Except.ok (msg, rest)) :
    rest.length < input.length := by
  unfold Connection.read at h
  cases h2 : readExact 2 input with
  | error e => rw [h2] at h; cases h
  | ok p =>
    obtain ⟨size, rest1⟩ := p
    rw [h2] at h
    have h3 : readExact (u16_from_be_bytes size) rest1 = Except.ok (msg, rest) := h
    obtain ⟨hle2, hr1⟩ := readExact_ok_facts h2
    obtain ⟨hlen, hr2⟩ := readExact_ok_facts h3
    subst hr2
    have : rest1.length ≤ input.length - 2 := by
      rw [hr1]; simp [List.length_drop]
    simp only [List.length_drop]
    omega

/-- A `poll` that returns `Ok` strictly shrinks the inbound stream. -/
def poll_ok_rest_lt {σ : Type} (card : VSmartCard σ) (s : σ)
    (input : List Nat) {u : Unit}
    (h : (Connection.poll card s input).result = Except.ok u) :
    (Connection.poll card s input).rest.length < input.length := by
  unfold Connection.poll at h ⊢
  cases hr : Connection.read input with
  | error e => rw [hr] at h; cases h
  | ok p =>
    obtain ⟨msg, rest⟩ := p
    have hlt := read_ok_rest_lt hr
    dsimp only
    split
    · exact hlt
    · split
      · split <;> exact hlt
      · exact hlt

/-- `Connection::run` of src/lib.rs: `loop { self.poll(card)? }` — poll
repeatedly until a call fails, and surface that first error unchanged.
On a (necessarily finite) modelled inbound stream the loop always ends in
an error since every successful poll consumes at least two bytes.  Returns
the terminating error, the final card state, all bytes written, and all
capability invocations in order. -/
def Connection.run {σ : Type} (card : VSmartCard σ) (s : σ)
    (input : List Nat) : VpcdError × σ × List Nat × List CardEvent :=
  match h : (Connection.poll card s input).result with
  | .error e =>
      (e, (Connection.poll card s input).card,
        (Connection.poll card s input).written,
        (Connection.poll card s input).events)
  | .ok _ =>
      let next := Connection.run card (Connection.poll card s input).card
        (Connection.poll card s input).rest
      (next.1, next.2.1,
        (Connection.poll card s input).written ++ next.2.2.1,
        (Connection.poll card s input).events ++ next.2.2.2)
termination_by input.length
decreasing_by exact poll_ok_rest_lt card s input h

/-- `n` consecutive successful polls, threading the card state and the
inbound stream and accumulating writes and events; `none` when one of the
`n` polls fails. -/
def pollSteps {σ : Type} (card : VSmartCard σ) :
    Nat → σ → List Nat → Option (σ × List Nat × List Nat × List CardEvent)
  | 0, s, input => some (s, input, [], [])
  | n + 1, s, input =>
    match (Connection.poll card s input).result with
    | .error _ => none
    | .ok _ =>
      match pollSteps card n (Connection.poll card s input).card
          (Connection.poll card s input).rest with
      | none => none
      | some (s2, rest, w, evs) =>
          some (s2, rest, (Connection.poll card s input).written ++ w,
            (Connection.poll card s input).events ++ evs)

/-! ## Helper lemmas -/

/-- Unfolding lemma: `readExact` on a sufficiently long stream. -/
theorem readExact_of_le {n : Nat} (input : List Nat) (h : n ≤ input.length) :
    readExact n input = Except.ok (input.take n, input.drop n) := by
  unfold readExact
  rw [if_pos h]

/-- `readExact 2` on a stream with at least two bytes. -/
theorem readExact_two_cons (a b : Nat) (t : List Nat) :
    readExact 2 (a :: b :: t) = Except.ok ([a, b], t) := by
  unfold readExact
  rw [if_pos (by simp)]
  rfl

/-- `Connection.read` first splits off two size bytes, then reads the
decoded number of payload bytes. -/
theorem read_cons_cons (a b : Nat) (t : List Nat) :
    Connection.read (a :: b :: t) = readExact (256 * a + b) t := by
  unfold Connection.read
  rw [readExact_two_cons]
  show readExact (u16_from_be_bytes [a, b]) t = readExact (256 * a + b) t
  rw [show u16_from_be_bytes [a, b] = 256 * a + b from rfl]

/-- For a payload short enough for the protocol, `send` produces exactly the
2-byte big-endian encoding of the payload length followed by the payload. -/
theorem send_eq_of_le (d : List Nat) (h : d.length ≤ 65535) :
    Connection.send d = d.length / 256 :: d.length % 256 :: d := by
  unfold Connection.send u16_to_be_bytes
  rw [Nat.mod_eq_of_lt (by omega)]
  rfl

/-- Reading a stream that starts with a well-formed frame yields the frame's
payload and leaves the bytes after the frame. -/
theorem read_frame (msg rest : List Nat) :
    Connection.read (msg.length / 256 :: msg.length % 256 :: (msg ++ rest)) =
      Except.ok (msg, rest) := by
  rw [read_cons_cons, Nat.div_add_mod,
    readExact_of_le (msg ++ rest) (by rw [List.length_append]; omega),
    List.take_left, List.drop_left]

/-! ## Claim theorems -/

/-- C1: for every payload p with length at most 65535, sending p as one
frame puts the 2-byte big-endian encoding of its length followed by p on
the wire, and reading one frame back from those bytes yields exactly p. -/
theorem frame_send_read_round_trip (p : List Nat) (h : p.length ≤ 65535) :
    Connection.send p = p.length / 256 :: p.length % 256 :: p ∧
    Connection.read (Connection.send p) = Except.ok (p, []) := by
  refine ⟨send_eq_of_le p h, ?_⟩
  rw [send_eq_of_le p h]
  have hr := read_frame p []
  rwa [List.append_nil] at hr

/-- Witness for C1 at the concrete payload [0xAB, 0xCD]. -/
theorem frame_send_read_round_trip_witness :
    Connection.send [0xAB, 0xCD] = [0x00, 0x02, 0xAB, 0xCD] ∧
    Connection.read (Connection.send [0xAB, 0xCD]) =
      Except.ok ([0xAB, 0xCD], []) :=
  frame_send_read_round_trip [0xAB, 0xCD] (by decide)

/-- C2: an inbound frame of length at least 2 is passed verbatim to the
card's execute operation (exactly one capability call), and the exact
response is written back as one frame with a correct big-endian length
prefix; concretely, frame 00 02 00 A4 against a card answering 90 00
produces the wire reply 00 02 90 00. -/
theorem poll_apdu_dispatch {σ : Type} (card : VSmartCard σ) (s : σ)
    (msg rest : List Nat) (h2 : 2 ≤ msg.length) (hle : msg.length ≤ 65535)
    (hresp : (card.execute s msg).2.length ≤ 65535) :
    Connection.poll card s
        (msg.length / 256 :: msg.length % 256 :: (msg ++ rest)) =
      ⟨Except.ok (), (card.execute s msg).1, rest,
        (card.execute s msg).2.length / 256 ::
          (card.execute s msg).2.length % 256 :: (card.execute s msg).2,
        [CardEvent.execute msg]⟩ ∧
    Connection.poll DummySmartCard () [0x00, 0x02, 0x00, 0xA4] =
      ⟨Except.ok (), (), [], [0x00, 0x02, 0x90, 0x00],
        [CardEvent.execute [0x00, 0xA4]]⟩ := by
  constructor
  · have base : Connection.poll card s
        (msg.length / 256 :: msg.length % 256 :: (msg ++ rest)) =
        ⟨Except.ok (), (card.execute s msg).1, rest,
          Connection.send (card.execute s msg).2, [CardEvent.execute msg]⟩ := by
      rcases msg with _ | ⟨a, _ | ⟨b, t⟩⟩
      · simp at h2
      · simp at h2
      · have hr := read_frame (a :: b :: t) rest
        unfold Connection.poll
        rw [hr]
        simp
    rw [base, send_eq_of_le _ hresp]
  · rfl

/-- Witness for C2 at the concrete frame [0x00, 0xA4] and the dummy card. -/
theorem poll_apdu_dispatch_witness :
    Connection.poll DummySmartCard () [0x00, 0x02, 0x00, 0xA4] =
      ⟨Except.ok (), (), [], [0x00, 0x02, 0x90, 0x00],
        [CardEvent.execute [0x00, 0xA4]]⟩ :=
  (poll_apdu_dispatch DummySmartCard () [0x00, 0xA4] []
    (by decide) (by decide) (by decide)).1

/-- C3: a control frame with single byte 4 makes poll write exactly one
response frame whose payload is the card's current ATR, with the matching
big-endian length prefix, reading the ATR exactly once and touching no
other capability operation; with the default ATR the inbound frame
00 01 04 produces the wire reply 00 0B 3B 95 13 81 01 80 73 FF 01 00 0B. -/
theorem poll_getatr_response {σ : Type} (card : VSmartCard σ) (s : σ)
    (rest : List Nat) (h : (card.atr s).length ≤ 65535) :
    Connection.poll card s ([0x00, 0x01, 0x04] ++ rest) =
      ⟨Except.ok (), s, rest,
        (card.atr s).length / 256 :: (card.atr s).length % 256 :: card.atr s,
        [CardEvent.atr]⟩ ∧
    Connection.poll DummySmartCard () [0x00, 0x01, 0x04] =
      ⟨Except.ok (), (), [],
        [0x00, 0x0B, 0x3B, 0x95, 0x13, 0x81, 0x01, 0x80, 0x73, 0xFF, 0x01,
          0x00, 0x0B],
        [CardEvent.atr]⟩ := by
  constructor
  · simp [Connection.poll, Connection.read, readExact, u16_from_be_bytes,
      Command.try_from, Connection.send, u16_to_be_bytes,
      Nat.mod_eq_of_lt (by omega : (card.atr s).length < 65536)]
  · rfl

/-- Witness for C3 with the dummy card (default ATR) and one trailing byte. -/
theorem poll_getatr_response_witness :
    Connection.poll DummySmartCard () ([0x00, 0x01, 0x04] ++ [0x07]) =
      ⟨Except.ok (), (), [0x07],
        (DummySmartCard.atr ()).length / 256 ::
          (DummySmartCard.atr ()).length % 256 :: DummySmartCard.atr (),
        [CardEvent.atr]⟩ :=
  (poll_getatr_response DummySmartCard () [0x07] (by decide)).1

/-- C4: a control frame with byte 0, 1 or 2 invokes exactly the matching
hook (power_off, power_on, reset) exactly once, invokes no other
capability operation, and writes nothing to the stream. -/
theorem poll_power_control_hooks {σ : Type} (card : VSmartCard σ) (s : σ)
    (rest : List Nat) :
    Connection.poll card s ([0x00, 0x01, 0x00] ++ rest) =
      ⟨Except.ok (), card.power_off s, rest, [], [CardEvent.powerOff]⟩ ∧
    Connection.poll card s ([0x00, 0x01, 0x01] ++ rest) =
      ⟨Except.ok (), card.power_on s, rest, [], [CardEvent.powerOn]⟩ ∧
    Connection.poll card s ([0x00, 0x01, 0x02] ++ rest) =
      ⟨Except.ok (), card.reset s, rest, [], [CardEvent.reset]⟩ := by
  refine ⟨?_, ?_, ?_⟩ <;>
    simp [Connection.poll, Connection.read, readExact, u16_from_be_bytes,
      Command.try_from]

/-- C5: the classifier maps 0, 1, 2, 4 to PowerOff, PowerOn, Reset, GetAtr
and every other byte to the decode error carrying that byte; a control
frame carrying such a byte makes poll fail with that same error, invoking
no capability operation and writing nothing. -/
theorem try_from_classification :
    Command.try_from 0 = Except.ok Command.powerOff ∧
    Command.try_from 1 = Except.ok Command.powerOn ∧
    Command.try_from 2 = Except.ok Command.reset ∧
    Command.try_from 4 = Except.ok Command.getAtr ∧
    (∀ b : Nat, b ≠ 0 → b ≠ 1 → b ≠ 2 → b ≠ 4 →
      Command.try_from b = Except.error (VpcdError.unsupportedCommand b) ∧
      ∀ (σ : Type) (card : VSmartCard σ) (s : σ) (rest : List Nat),
        Connection.poll card s ([0x00, 0x01] ++ b :: rest) =
          ⟨Except.error (VpcdError.unsupportedCommand b), s, rest, [], []⟩) := by
  refine ⟨rfl, rfl, rfl, rfl, ?_⟩
  intro b h0 h1 h2 h4
  constructor
  · simp [Command.try_from, h0, h1, h2, h4]
  · intro σ card s rest
    simp [Connection.poll, Connection.read, readExact, u16_from_be_bytes,
      Command.try_from, h0, h1, h2, h4]

/-- Witness for C5 at the unrecognized control byte 3. -/
theorem try_from_classification_witness :
    Command.try_from 3 = Except.error (VpcdError.unsupportedCommand 3) ∧
    Connection.poll DummySmartCard () [0x00, 0x01, 0x03] =
      ⟨Except.error (VpcdError.unsupportedCommand 3), (), [], [], []⟩ := by
  have h := try_from_classification.2.2.2.2 3
    (by decide) (by decide) (by decide) (by decide)
  exact ⟨h.1, h.2 Unit DummySmartCard () []⟩

/-- C6: a zero-length inbound frame makes poll fail with the dedicated
empty-message error, which is distinct from every other error of the
engine; no capability operation is invoked and nothing is written, so
command dispatch is never reached. -/
theorem poll_empty_message_error {σ : Type} (card : VSmartCard σ) (s : σ)
    (rest : List Nat) :
    Connection.poll card s ([0x00, 0x00] ++ rest) =
      ⟨Except.error VpcdError.emptyMessage, s, rest, [], []⟩ ∧
    VpcdError.emptyMessage ≠ VpcdError.unexpectedEof ∧
    ∀ b : Nat, VpcdError.emptyMessage ≠ VpcdError.unsupportedCommand b := by
  refine ⟨?_, by decide, fun b => by simp⟩
  simp [Connection.poll, Connection.read, readExact, u16_from_be_bytes]

/-- C7: reading a frame interprets the first 2 bytes as a big-endian
unsigned 16-bit length n and then takes exactly n payload bytes; whenever
the stream is too short for the 2-byte size or for the n payload bytes it
fails with the end-of-file transport error, and a short read is never
accepted. -/
theorem read_exact_frame_spec (input : List Nat) :
    Connection.read input =
      if 2 + u16_from_be_bytes (input.take 2) ≤ input.length then
        Except.ok ((input.drop 2).take (u16_from_be_bytes (input.take 2)),
          (input.drop 2).drop (u16_from_be_bytes (input.take 2)))
      else Except.error VpcdError.unexpectedEof := by
  match input with
  | [] => rfl
  | [a] => rfl
  | a :: b :: t =>
    rw [read_cons_cons,
      show u16_from_be_bytes ((a :: b :: t).take 2) = 256 * a + b from rfl,
      show (a :: b :: t).drop 2 = t from rfl,
      show (a :: b :: t).length = t.length + 2 by simp [List.length_cons]]
    unfold readExact
    by_cases hc : 256 * a + b ≤ t.length
    · rw [if_pos hc, if_pos (by omega)]
    · rw [if_neg hc, if_neg (by omega)]

/-- C8: a stream that ends before the 2-byte length prefix is complete
(no bytes at all, or a single byte), or that ends mid-payload, makes poll
fail with the end-of-file transport error, and that error is distinct from
the empty-message protocol error raised when the prefix 00 00 is read in
full. -/
theorem eof_and_empty_message_distinct {σ : Type} (card : VSmartCard σ)
    (s : σ) :
    (Connection.poll card s []).result = Except.error VpcdError.unexpectedEof ∧
    (∀ b : Nat, (Connection.poll card s [b]).result =
      Except.error VpcdError.unexpectedEof) ∧
    (Connection.poll card s [0x00, 0x05]).result =
      Except.error VpcdError.unexpectedEof ∧
    (∀ rest : List Nat, (Connection.poll card s ([0x00, 0x00] ++ rest)).result =
      Except.error VpcdError.emptyMessage) ∧
    VpcdError.unexpectedEof ≠ VpcdError.emptyMessage := by
  refine ⟨rfl, fun b => rfl, rfl, fun rest => ?_, by decide⟩
  simp [Connection.poll, Connection.read, readExact, u16_from_be_bytes]

/-- C9: run performs exactly some number n of successful polls followed by
one failing poll: the error of that first failing poll is returned
unchanged as run's outcome (run never returns success), together with
exactly the writes and capability calls of those polls, and no poll is
attempted after the failure. -/
theorem run_iterates_poll_until_failure {σ : Type} (card : VSmartCard σ)
    (s : σ) (input : List Nat) :
    ∃ (n : Nat) (s2 : σ) (rest w : List Nat) (evs : List CardEvent)
      (e : VpcdError),
      pollSteps card n s input = some (s2, rest, w, evs) ∧
      (Connection.poll card s2 rest).result = Except.error e ∧
      Connection.run card s input =
        (e, (Connection.poll card s2 rest).card,
          w ++ (Connection.poll card s2 rest).written,
          evs ++ (Connection.poll card s2 rest).events) := by
  suffices h : ∀ (N : Nat) (input : List Nat), input.length < N → ∀ s : σ,
      ∃ (n : Nat) (s2 : σ) (rest w : List Nat) (evs : List CardEvent)
        (e : VpcdError),
        pollSteps card n s input = some (s2, rest, w, evs) ∧
        (Connection.poll card s2 rest).result = Except.error e ∧
        Connection.run card s input =
          (e, (Connection.poll card s2 rest).card,
            w ++ (Connection.poll card s2 rest).written,
            evs ++ (Connection.poll card s2 rest).events) by
    exact h (input.length + 1) input (Nat.lt_succ_self _) s
  intro N
  induction N with
  | zero => exact fun input hlt => absurd hlt (Nat.not_lt_zero _)
  | succ N ih =>
    intro input hlt s
    cases hres : (Connection.poll card s input).result with
    | error e =>
      refine ⟨0, s, input, [], [], e, rfl, hres, ?_⟩
      rw [Connection.run]
      split
      · next e2 heq =>
          rw [hres] at heq
          injection heq with heq2
          rw [heq2]
          simp
      · next u heq =>
          rw [hres] at heq
          cases heq
    | ok u =>
      have hlen : (Connection.poll card s input).rest.length < N :=
        Nat.lt_of_lt_of_le (poll_ok_rest_lt card s input hres)
          (Nat.lt_succ_iff.mp hlt)
      obtain ⟨n, s2, rest2, w, evs, e, hsteps, herr, hrun⟩ :=
        ih (Connection.poll card s input).rest hlen
          (Connection.poll card s input).card
      refine ⟨n + 1, s2, rest2,
        (Connection.poll card s input).written ++ w,
        (Connection.poll card s input).events ++ evs, e, ?_, herr, ?_⟩
      · simp only [pollSteps, hres, hsteps]
      · rw [Connection.run]
        split
        · next e2 heq =>
            rw [hres] at heq
            cases heq
        · next u2 heq =>
            rw [hrun]
            simp [List.append_assoc]

/-- C10: send always succeeds and always writes a 2-byte prefix holding
the payload length reduced modulo 65536 followed by the whole payload;
hence for a payload longer than 65535 bytes the prefix no longer equals
the payload length and the framing invariant is silently violated. -/
theorem send_length_mod_65536 (d : List Nat) :
    (Connection.send d).length = 2 + d.length ∧
    u16_from_be_bytes ((Connection.send d).take 2) = d.length % 65536 ∧
    (Connection.send d).drop 2 = d ∧
    (65535 < d.length →
      u16_from_be_bytes ((Connection.send d).take 2) ≠ d.length) := by
  have hp : u16_from_be_bytes ((Connection.send d).take 2) =
      d.length % 65536 := by
    show 256 * (d.length % 65536 / 256) + d.length % 65536 % 256 =
      d.length % 65536
    exact Nat.div_add_mod _ 256
  refine ⟨?_, hp, rfl, ?_⟩
  · show (d.length % 65536 / 256 :: d.length % 65536 % 256 :: d).length =
      2 + d.length
    simp only [List.length_cons]
    omega
  · intro hgt
    rw [hp]
    have hlt : d.length % 65536 < 65536 := Nat.mod_lt _ (by omega)
    omega

/-- Witness for C10 at a payload of 65536 zero bytes, whose prefix decodes
to 0 instead of 65536. -/
theorem send_length_mod_65536_witness :
    u16_from_be_bytes ((Connection.send (List.replicate 65536 0)).take 2) ≠
      (List.replicate 65536 0).length :=
  (send_length_mod_65536 (List.replicate 65536 0)).2.2.2
    (by rw [List.length_replicate]; omega)
